import Mathlib

/-!
# Verification of the hypergraph routing engine's geometry and solver policies

This file gives a shallow embedding, in Lean 4, of the parts of the
`hypergraph` routing repository that the specification's claims are about:

* the perimeter parameterization and chord-crossing geometry of
  `src/lib/JumperGraphSolver/perimeterChordUtils.ts`,
* the polygon-aware crossing engine of `polygonPerimeterUtils.ts`
  (the version with the Cartesian segment-intersection fallback),
* the rectangle crossing engine of
  `src/lib/JumperGraphSolver/computeDifferentNetCrossings.ts` and
  `computeCrossingAssignments.ts`,
* the via-variant policy methods and constructor of `ViaGraphSolver.ts`,
* the hydration routine of `convertSerializedHyperGraphToHyperGraph.ts`.

Modelling conventions:

* JavaScript `number` is modelled by `ℚ` with exact arithmetic.  JS `%`
  (truncated remainder) is modelled by `jsRem`, so that
  `normalizeMod` is a faithful rendering of
  `((value % modulus) + modulus) % modulus`.
* `Math.hypot` returns the Euclidean length of an edge, which is
  irrational in general; the development therefore passes the
  edge-length function as an explicit parameter `len : Pt → Pt → ℚ`.
  Every general theorem below holds for an arbitrary `len` (hence in
  particular for the Euclidean one), and every concrete instance uses
  polygons whose edges are axis-aligned, where the Euclidean length of
  an edge `(a, b)` is exactly `|b.x - a.x| + |b.y - a.y|`.
* TypeScript object identity between a port's `region1`/`region2`
  references and a region is modelled by equality of `regionId`
  (hydration creates one region object per id).
* In-place caching (`port.region1T`, `region.d.polygonPerimeterCache`)
  is write-once and deterministic: a cache entry, when written, always
  holds exactly the value that a fresh computation would return.  The
  value-level functions below therefore read the cache field or
  recompute, which yields exactly the value every TS call returns; the
  port-level cache write is additionally modelled explicitly (the
  updated port is returned alongside the value) because one claim is
  about that write.
-/

/-- A 2D point, `type Pt = { x: number; y: number }`. -/
structure Pt where
  x : ℚ
  y : ℚ
deriving DecidableEq, Repr

/-- `clamp(value, min, max) = Math.max(min, Math.min(max, value))`. -/
def clamp (value lo hi : ℚ) : ℚ :=
  max lo (min hi value)

/-- `dist2(a, b)`: squared Euclidean distance between two points. -/
def dist2 (a b : Pt) : ℚ :=
  (a.x - b.x) * (a.x - b.x) + (a.y - b.y) * (a.y - b.y)

/-- `getRectanglePerimeter(xmin, xmax, ymin, ymax)`. -/
def getRectanglePerimeter (xmin xmax ymin ymax : ℚ) : ℚ :=
  2 * (xmax - xmin) + 2 * (ymax - ymin)

/-- JS truncation toward zero, as used by the `%` operator:
`Math.trunc(q)` for a rational `q`. -/
def truncQ (q : ℚ) : ℤ :=
  if 0 ≤ q then ⌊q⌋ else ⌈q⌉

/-- The JS remainder `a % m` (sign follows the dividend):
`a - m * Math.trunc(a / m)`. -/
def jsRem (a m : ℚ) : ℚ :=
  a - m * truncQ (a / m)

/-- `normalizeMod(value, modulus) = ((value % modulus) + modulus) % modulus`. -/
def normalizeMod (value modulus : ℚ) : ℚ :=
  jsRem (jsRem value modulus + modulus) modulus

/-- `areCoincident(t1, t2, eps)`: `|t1 - t2| < eps`. -/
def areCoincident (t1 t2 eps : ℚ) : Bool :=
  decide (|t1 - t2| < eps)

/-- `areCoincidentOnCircle(t1, t2, perimeter, eps)`. -/
def areCoincidentOnCircle (t1 t2 perimeter eps : ℚ) : Bool :=
  let delta := |normalizeMod (t1 - t2) perimeter|
  decide (delta < eps) || decide (perimeter - delta < eps)

/-- `betweenMod(x, start, end, perimeter, eps)`: is `x` strictly inside
the arc from `start` to `end` (walking in increasing-`t` direction),
with the degenerate-arc guard `|ns - ne| < eps`. -/
def betweenMod (x s e perimeter eps : ℚ) : Bool :=
  let nx := normalizeMod x perimeter
  let ns := normalizeMod s perimeter
  let ne := normalizeMod e perimeter
  if |ns - ne| < eps then false
  else if ns < ne then decide (ns < nx) && decide (nx < ne)
  else decide (nx > ns) || decide (nx < ne)

/-- The lower half of `chordsCross`: the branch taken when no (positive)
perimeter is supplied.  Chords are sorted, coincident endpoints are
excluded with `areCoincident` (eps `1e-6`), then the linear
interleaving criterion `a < c < b < d ∨ c < a < d < b` is applied. -/
def chordsCrossNoPerimeter (chord1 chord2 : ℚ × ℚ) : Bool :=
  let ab := if chord1.1 < chord1.2 then chord1 else (chord1.2, chord1.1)
  let cd := if chord2.1 < chord2.2 then chord2 else (chord2.2, chord2.1)
  let a := ab.1
  let b := ab.2
  let c := cd.1
  let d := cd.2
  if areCoincident a c 1e-6 || areCoincident a d 1e-6 ||
      areCoincident b c 1e-6 || areCoincident b d 1e-6 then false
  else
    decide (a < c) && decide (c < b) && decide (b < d) ||
      decide (c < a) && decide (a < d) && decide (d < b)

/-- `chordsCross(chord1, chord2, perimeter?)`.  When a positive
perimeter is given, endpoints are normalized modulo the perimeter,
circle-coincident endpoints (eps `1e-6`) yield `false`, and otherwise
the crossing is the exclusive-or of the two `betweenMod` memberships
(eps `1e-12`).  Otherwise the linear branch is used. -/
def chordsCross (chord1 chord2 : ℚ × ℚ) (perimeter : Option ℚ) : Bool :=
  match perimeter with
  | some P =>
    if 0 < P then
      let a := normalizeMod chord1.1 P
      let b := normalizeMod chord1.2 P
      let c := normalizeMod chord2.1 P
      let d := normalizeMod chord2.2 P
      if areCoincidentOnCircle a c P 1e-6 || areCoincidentOnCircle a d P 1e-6 ||
          areCoincidentOnCircle b c P 1e-6 || areCoincidentOnCircle b d P 1e-6 then
        false
      else
        let cInside := betweenMod c a b P 1e-12
        let dInside := betweenMod d a b P 1e-12
        cInside != dInside
    else chordsCrossNoPerimeter chord1 chord2
  | none => chordsCrossNoPerimeter chord1 chord2

/-! ### Arithmetic facts about `normalizeMod`

`decide`-style kernel evaluation is not available on `ℚ`, so concrete
instances are evaluated through the following characterization:
`normalizeMod x m` is the unique representative of `x` modulo `m` in
`[0, m)` (for `m > 0`). -/

theorem truncQ_gt (q : ℚ) : q - 1 < truncQ q := by
  unfold truncQ
  split
  · have := Int.lt_floor_add_one q
    linarith
  · have := Int.le_ceil q
    linarith

theorem truncQ_lt (q : ℚ) : (truncQ q : ℚ) < q + 1 := by
  unfold truncQ
  split
  · have := Int.floor_le q
    linarith
  · have := Int.ceil_lt_add_one q
    linarith

theorem truncQ_le_of_nonneg {q : ℚ} (h : 0 ≤ q) : (truncQ q : ℚ) ≤ q := by
  unfold truncQ
  rw [if_pos h]
  exact Int.floor_le q

theorem jsRem_sub_int (x m : ℚ) : ∃ k : ℤ, jsRem x m = x - k * m := by
  exact ⟨truncQ (x / m), by rw [jsRem]; ring⟩

theorem jsRem_lt {m : ℚ} (hm : 0 < m) (x : ℚ) : jsRem x m < m := by
  have hm' : m ≠ 0 := ne_of_gt hm
  have h1 : jsRem x m = m * (x / m - truncQ (x / m)) := by
    rw [jsRem, mul_sub, mul_div_cancel₀ x hm']
  rw [h1]
  have h2 : x / m - truncQ (x / m) < 1 := by
    have := truncQ_gt (x / m)
    linarith
  calc m * (x / m - truncQ (x / m)) < m * 1 := by
        exact mul_lt_mul_of_pos_left h2 hm
    _ = m := mul_one m

theorem neg_lt_jsRem {m : ℚ} (hm : 0 < m) (x : ℚ) : -m < jsRem x m := by
  have hm' : m ≠ 0 := ne_of_gt hm
  have h1 : jsRem x m = m * (x / m - truncQ (x / m)) := by
    rw [jsRem, mul_sub, mul_div_cancel₀ x hm']
  rw [h1]
  have h2 : (-1 : ℚ) < x / m - truncQ (x / m) := by
    have := truncQ_lt (x / m)
    linarith
  have := mul_lt_mul_of_pos_left h2 hm
  linarith

theorem jsRem_nonneg {m : ℚ} (hm : 0 < m) {x : ℚ} (hx : 0 ≤ x) :
    0 ≤ jsRem x m := by
  have hm' : m ≠ 0 := ne_of_gt hm
  have h1 : jsRem x m = m * (x / m - truncQ (x / m)) := by
    rw [jsRem, mul_sub, mul_div_cancel₀ x hm']
  rw [h1]
  have hq : 0 ≤ x / m := div_nonneg hx (le_of_lt hm)
  have h2 : (truncQ (x / m) : ℚ) ≤ x / m := truncQ_le_of_nonneg hq
  have h3 : 0 ≤ x / m - truncQ (x / m) := by linarith
  exact mul_nonneg (le_of_lt hm) h3

theorem normalizeMod_nonneg {m : ℚ} (hm : 0 < m) (x : ℚ) :
    0 ≤ normalizeMod x m := by
  rw [normalizeMod]
  exact jsRem_nonneg hm (by have := neg_lt_jsRem hm x; linarith)

theorem normalizeMod_lt {m : ℚ} (hm : 0 < m) (x : ℚ) :
    normalizeMod x m < m := by
  rw [normalizeMod]
  exact jsRem_lt hm _

theorem normalizeMod_sub_int (x m : ℚ) :
    ∃ k : ℤ, x - normalizeMod x m = k * m := by
  obtain ⟨k₁, h₁⟩ := jsRem_sub_int x m
  obtain ⟨k₂, h₂⟩ := jsRem_sub_int (jsRem x m + m) m
  refine ⟨k₁ + k₂ - 1, ?_⟩
  rw [normalizeMod, h₂, h₁]
  push_cast
  ring

theorem normalizeMod_unique {m : ℚ} (hm : 0 < m) {x r : ℚ} (k : ℤ)
    (h0 : 0 ≤ r) (h1 : r < m) (hk : x - r = k * m) :
    normalizeMod x m = r := by
  obtain ⟨k', hk'⟩ := normalizeMod_sub_int x m
  set n := normalizeMod x m with hn
  have hn0 : 0 ≤ n := normalizeMod_nonneg hm x
  have hn1 : n < m := normalizeMod_lt hm x
  have hd : n - r = ((k - k' : ℤ) : ℚ) * m := by push_cast; nlinarith [hk, hk']
  rcases lt_trichotomy (k - k') 0 with h | h | h
  · exfalso
    have : ((k - k' : ℤ) : ℚ) ≤ -1 := by exact_mod_cast Int.le_sub_one_of_lt h
    nlinarith
  · rw [h] at hd; push_cast at hd; linarith
  · exfalso
    have : (1 : ℚ) ≤ ((k - k' : ℤ) : ℚ) := by exact_mod_cast h
    nlinarith

theorem normalizeMod_eq_self {m x : ℚ} (h0 : 0 ≤ x) (h1 : x < m) :
    normalizeMod x m = x :=
  normalizeMod_unique (lt_of_le_of_lt h0 h1) 0 h0 h1 (by ring)

theorem normalizeMod_of_neg {m x : ℚ} (h0 : -m < x) (h1 : x < 0) :
    normalizeMod x m = x + m := by
  have hm : 0 < m := by linarith
  exact normalizeMod_unique hm (-1) (by linarith) (by linarith) (by ring)

theorem normalizeMod_idem {m : ℚ} (hm : 0 < m) (x : ℚ) :
    normalizeMod (normalizeMod x m) m = normalizeMod x m :=
  normalizeMod_eq_self (normalizeMod_nonneg hm x) (normalizeMod_lt hm x)

theorem normalizeMod_congr {m : ℚ} (hm : 0 < m) {x y : ℚ}
    (h : ∃ k : ℤ, x - y = k * m) : normalizeMod x m = normalizeMod y m := by
  obtain ⟨k, hk⟩ := h
  obtain ⟨k', hk'⟩ := normalizeMod_sub_int y m
  exact normalizeMod_unique hm (k + k') (normalizeMod_nonneg hm y)
    (normalizeMod_lt hm y) (by push_cast; linarith)

theorem normalizeMod_sub_add_rev {m : ℚ} (hm : 0 < m) (x y : ℚ) :
    normalizeMod (x - y) m + normalizeMod (y - x) m = 0 ∨
      normalizeMod (x - y) m + normalizeMod (y - x) m = m := by
  obtain ⟨k₁, h₁⟩ := normalizeMod_sub_int (x - y) m
  obtain ⟨k₂, h₂⟩ := normalizeMod_sub_int (y - x) m
  set u := normalizeMod (x - y) m
  set v := normalizeMod (y - x) m
  have hu0 : 0 ≤ u := normalizeMod_nonneg hm _
  have hu1 : u < m := normalizeMod_lt hm _
  have hv0 : 0 ≤ v := normalizeMod_nonneg hm _
  have hv1 : v < m := normalizeMod_lt hm _
  have hsum : u + v = ((-(k₁ + k₂) : ℤ) : ℚ) * m := by push_cast; linarith
  set K : ℤ := -(k₁ + k₂) with hK
  have hK0 : 0 ≤ K := by
    by_contra h
    have h2 : K ≤ -1 := by omega
    have h1 : (K : ℚ) ≤ -1 := by exact_mod_cast h2
    nlinarith
  have hK2 : K < 2 := by
    by_contra h
    have h1 : (2 : ℚ) ≤ (K : ℚ) := by exact_mod_cast (by omega : (2:ℤ) ≤ K)
    nlinarith
  interval_cases K
  · left; simpa using hsum
  · right; simpa using hsum

theorem normalizeMod_sub_eq_zero_iff {m : ℚ} (hm : 0 < m) (x y : ℚ) :
    normalizeMod (x - y) m = 0 ↔ normalizeMod (y - x) m = 0 := by
  have h := normalizeMod_sub_add_rev hm x y
  have hu0 : 0 ≤ normalizeMod (x - y) m := normalizeMod_nonneg hm _
  have hu1 : normalizeMod (x - y) m < m := normalizeMod_lt hm _
  have hv0 : 0 ≤ normalizeMod (y - x) m := normalizeMod_nonneg hm _
  have hv1 : normalizeMod (y - x) m < m := normalizeMod_lt hm _
  constructor <;> intro h0 <;> rcases h with h | h <;> linarith

/-! ### Specification-side predicates for the chord-crossing claim

These two predicates are written from the specification's sentence "two
chords `(a,b)` and `(c,d)` on a circle of circumference `P` cross iff
exactly one of `c, d` lies in the open arc `(a,b)` (taken modulo `P`);
endpoints coincident within `1e-6` do not count as crossings". -/

/-- Two perimeter coordinates are coincident on the circle of
circumference `P` within `1e-6`: their (directed, normalized) distance
is `< 1e-6` on one side or the other. -/
def circleCoincident (t1 t2 P : ℚ) : Prop :=
  normalizeMod (t1 - t2) P < 1e-6 ∨ P - normalizeMod (t1 - t2) P < 1e-6

/-- `x` lies strictly inside the open arc that starts at `s` and runs in
the direction of increasing perimeter coordinate (modulo `P`) until `e`:
the normalized offset of `x` from `s` is strictly between `0` and the
normalized offset of `e` from `s`.  This is exact (no epsilon). -/
def inOpenArc (x s e P : ℚ) : Prop :=
  0 < normalizeMod (x - s) P ∧ normalizeMod (x - s) P < normalizeMod (e - s) P

instance (x s e P : ℚ) : Decidable (inOpenArc x s e P) := by
  unfold inOpenArc; infer_instance

instance (t1 t2 P : ℚ) : Decidable (circleCoincident t1 t2 P) := by
  unfold circleCoincident; infer_instance

theorem areCoincidentOnCircle_norm {P : ℚ} (hP : 0 < P) (t1 t2 : ℚ) :
    areCoincidentOnCircle (normalizeMod t1 P) (normalizeMod t2 P) P 1e-6 = true ↔
      circleCoincident t1 t2 P := by
  have hcongr : normalizeMod (normalizeMod t1 P - normalizeMod t2 P) P =
      normalizeMod (t1 - t2) P := by
    apply normalizeMod_congr hP
    obtain ⟨k₁, h₁⟩ := normalizeMod_sub_int t1 P
    obtain ⟨k₂, h₂⟩ := normalizeMod_sub_int t2 P
    exact ⟨k₂ - k₁, by push_cast; linarith⟩
  have habs : |normalizeMod (normalizeMod t1 P - normalizeMod t2 P) P| =
      normalizeMod (t1 - t2) P := by
    rw [hcongr]
    exact abs_of_nonneg (normalizeMod_nonneg hP _)
  simp only [areCoincidentOnCircle, habs, circleCoincident, Bool.or_eq_true,
    decide_eq_true_eq]

theorem normalizeMod_sub_norm {P : ℚ} (hP : 0 < P) (x y : ℚ) :
    normalizeMod (normalizeMod x P - normalizeMod y P) P =
      normalizeMod (x - y) P := by
  apply normalizeMod_congr hP
  obtain ⟨k₁, h₁⟩ := normalizeMod_sub_int x P
  obtain ⟨k₂, h₂⟩ := normalizeMod_sub_int y P
  exact ⟨k₂ - k₁, by push_cast; linarith⟩

theorem betweenMod_norm {P : ℚ} (hP : 0 < P) (x s e eps : ℚ) :
    betweenMod (normalizeMod x P) (normalizeMod s P) (normalizeMod e P) P eps =
      betweenMod x s e P eps := by
  unfold betweenMod
  rw [normalizeMod_idem hP, normalizeMod_idem hP, normalizeMod_idem hP]

theorem betweenMod_eq_inOpenArc {P : ℚ} (hP : 0 < P) {x s e : ℚ}
    (hsep : ¬ |normalizeMod s P - normalizeMod e P| < 1e-12) :
    (betweenMod x s e P 1e-12 = true ↔ inOpenArc x s e P) := by
  have hx0 : 0 ≤ normalizeMod x P := normalizeMod_nonneg hP x
  have hx1 : normalizeMod x P < P := normalizeMod_lt hP x
  have hs0 : 0 ≤ normalizeMod s P := normalizeMod_nonneg hP s
  have hs1 : normalizeMod s P < P := normalizeMod_lt hP s
  have he0 : 0 ≤ normalizeMod e P := normalizeMod_nonneg hP e
  have he1 : normalizeMod e P < P := normalizeMod_lt hP e
  unfold betweenMod inOpenArc
  rw [← normalizeMod_sub_norm hP x s, ← normalizeMod_sub_norm hP e s]
  set nx := normalizeMod x P
  set ns := normalizeMod s P
  set ne' := normalizeMod e P
  rw [if_neg hsep]
  by_cases hlt : ns < ne'
  · rw [if_pos hlt]
    simp only [Bool.and_eq_true, decide_eq_true_eq]
    have hes : normalizeMod (ne' - ns) P = ne' - ns :=
      normalizeMod_eq_self (by linarith) (by linarith)
    rw [hes]
    rcases le_or_lt ns nx with hle | hgt
    · rw [normalizeMod_eq_self (by linarith) (by linarith)]
      constructor
      · rintro ⟨h1, h2⟩; exact ⟨by linarith, by linarith⟩
      · rintro ⟨h1, h2⟩; exact ⟨by linarith, by linarith⟩
    · rw [normalizeMod_of_neg (by linarith) (by linarith)]
      constructor
      · rintro ⟨h1, h2⟩; exfalso; linarith
      · rintro ⟨h1, h2⟩; exfalso; linarith
  · have hne : ne' < ns := by
      rcases lt_trichotomy ns ne' with h | h | h
      · exact absurd h hlt
      · exfalso; apply hsep; rw [h]; norm_num
      · exact h
    rw [if_neg hlt]
    simp only [Bool.or_eq_true, decide_eq_true_eq]
    have hes : normalizeMod (ne' - ns) P = ne' - ns + P :=
      normalizeMod_of_neg (by linarith) (by linarith)
    rw [hes]
    rcases lt_trichotomy nx ns with hx | hx | hx
    · rw [normalizeMod_of_neg (by linarith) (by linarith)]
      constructor
      · rintro (h | h)
        · exfalso; linarith
        · exact ⟨by linarith, by linarith⟩
      · rintro ⟨h1, h2⟩; exact Or.inr (by linarith)
    · rw [hx, sub_self, normalizeMod_eq_self le_rfl hP]
      constructor
      · rintro (h | h) <;> [exact absurd h (lt_irrefl ns); skip]
        exfalso; linarith
      · rintro ⟨h1, h2⟩; exact absurd h1 (lt_irrefl 0)
    · rw [normalizeMod_eq_self (by linarith) (by linarith)]
      constructor
      · rintro _; exact ⟨by linarith, by linarith⟩
      · rintro _; exact Or.inl hx

theorem inOpenArc_of_close {P : ℚ} (hP : 0 < P) {x s e : ℚ}
    (hclose : |normalizeMod s P - normalizeMod e P| < 1e-12)
    (hxs : ¬ circleCoincident s x P) :
    (inOpenArc x s e P ↔ normalizeMod e P < normalizeMod s P) := by
  have hs0 : 0 ≤ normalizeMod s P := normalizeMod_nonneg hP s
  have hs1 : normalizeMod s P < P := normalizeMod_lt hP s
  have he0 : 0 ≤ normalizeMod e P := normalizeMod_nonneg hP e
  have he1 : normalizeMod e P < P := normalizeMod_lt hP e
  have hxs' : 1e-6 ≤ normalizeMod (s - x) P ∧
      1e-6 ≤ P - normalizeMod (s - x) P := by
    rw [circleCoincident] at hxs
    push_neg at hxs
    exact hxs
  have habs : |normalizeMod s P - normalizeMod e P| < 1e-12 := hclose
  have hsum := normalizeMod_sub_add_rev hP x s
  have hx0 : 0 ≤ normalizeMod (x - s) P := normalizeMod_nonneg hP _
  have hx1 : normalizeMod (x - s) P < P := normalizeMod_lt hP _
  unfold inOpenArc
  rw [← normalizeMod_sub_norm hP e s]
  rcases lt_trichotomy (normalizeMod s P) (normalizeMod e P) with hlt | heq | hgt
  · have hd : normalizeMod e P - normalizeMod s P < 1e-12 := by
      rw [abs_lt] at habs; linarith
    have hes : normalizeMod (normalizeMod e P - normalizeMod s P) P =
        normalizeMod e P - normalizeMod s P :=
      normalizeMod_eq_self (by linarith) (by linarith)
    rw [hes]
    constructor
    · rintro ⟨h1, h2⟩
      exfalso
      rcases hsum with h | h
      · linarith
      · have : P - normalizeMod (s - x) P = normalizeMod (x - s) P := by linarith
        linarith [hxs'.2]
    · intro h; exfalso; linarith
  · rw [heq, sub_self, normalizeMod_eq_self le_rfl hP]
    constructor
    · rintro ⟨h1, h2⟩; exfalso; linarith
    · intro h; exfalso; linarith
  · have hd : normalizeMod s P - normalizeMod e P < 1e-12 := by
      rw [abs_lt] at habs; linarith
    have hes : normalizeMod (normalizeMod e P - normalizeMod s P) P =
        normalizeMod e P - normalizeMod s P + P :=
      normalizeMod_of_neg (by linarith) (by linarith)
    rw [hes]
    have hA : 1e-6 ≤ normalizeMod (s - x) P := hxs'.1
    rcases hsum with h | h
    · exfalso; linarith
    · constructor
      · intro _; exact hgt
      · intro _
        refine ⟨by linarith [hxs'.2], by linarith⟩


/-- **C4.** For every perimeter `P > 0` and chords `(a,b)`, `(c,d)` given as
perimeter coordinates, `chordsCross` returns `true` iff exactly one of `c`,
`d` lies in the open arc from `a` to `b` taken modulo `P`, and it returns
`false` whenever any endpoint of one chord is coincident with an endpoint of
the other within `1e-6` (mod `P`), even when the underlying segments share
exactly one corner. -/
theorem chordsCross_circle_spec (a b c d P : ℚ) (hP : 0 < P) :
    chordsCross (a, b) (c, d) (some P) = true ↔
      (¬ circleCoincident a c P ∧ ¬ circleCoincident a d P ∧
        ¬ circleCoincident b c P ∧ ¬ circleCoincident b d P) ∧
      (inOpenArc c a b P ↔ ¬ inOpenArc d a b P) := by
  have hac := areCoincidentOnCircle_norm hP a c
  have had := areCoincidentOnCircle_norm hP a d
  have hbc := areCoincidentOnCircle_norm hP b c
  have hbd := areCoincidentOnCircle_norm hP b d
  simp only [chordsCross, if_pos hP]
  cases hcond : (areCoincidentOnCircle (normalizeMod a P) (normalizeMod c P) P 1e-6 ||
        areCoincidentOnCircle (normalizeMod a P) (normalizeMod d P) P 1e-6 ||
        areCoincidentOnCircle (normalizeMod b P) (normalizeMod c P) P 1e-6 ||
        areCoincidentOnCircle (normalizeMod b P) (normalizeMod d P) P 1e-6) with
  | true =>
    simp only [if_true, Bool.false_eq_true, false_iff]
    rintro ⟨hcoin, -⟩
    simp only [Bool.or_eq_true] at hcond
    rcases hcond with ((hA | hB) | hC) | hD
    · exact hcoin.1 (hac.mp hA)
    · exact hcoin.2.1 (had.mp hB)
    · exact hcoin.2.2.1 (hbc.mp hC)
    · exact hcoin.2.2.2 (hbd.mp hD)
  | false =>
    simp only [Bool.or_eq_false_iff] at hcond
    obtain ⟨⟨⟨hA, hB⟩, hC⟩, hD⟩ := hcond
    have h1 : ¬ circleCoincident a c P := by rw [← hac]; simp [hA]
    have h2 : ¬ circleCoincident a d P := by rw [← had]; simp [hB]
    have h3 : ¬ circleCoincident b c P := by rw [← hbc]; simp [hC]
    have h4 : ¬ circleCoincident b d P := by rw [← hbd]; simp [hD]
    simp only [Bool.false_eq_true, if_false]
    rw [betweenMod_norm hP, betweenMod_norm hP]
    have hxor : ∀ b1 b2 : Bool, ((b1 != b2) = true ↔ (b1 = true ↔ ¬ b2 = true)) := by
      decide
    rw [hxor]
    by_cases hsep : |normalizeMod a P - normalizeMod b P| < 1e-12
    · have hc := inOpenArc_of_close hP hsep h1
      have hd' := inOpenArc_of_close hP hsep h2
      have hbmc : betweenMod c a b P 1e-12 = false := by
        unfold betweenMod
        rw [if_pos hsep]
      have hbmd : betweenMod d a b P 1e-12 = false := by
        unfold betweenMod
        rw [if_pos hsep]
      rw [hbmc, hbmd]
      simp only [Bool.false_eq_true, false_iff, not_false_eq_true, iff_true]
      rintro ⟨-, hiff⟩
      rcases lt_or_le (normalizeMod b P) (normalizeMod a P) with hba | hba
      · exact (hiff.mp (hc.mpr hba)) (hd'.mpr hba)
      · have hnc : ¬ inOpenArc c a b P := fun h => absurd (hc.mp h) (not_lt.mpr hba)
        have hnd : ¬ inOpenArc d a b P := fun h => absurd (hd'.mp h) (not_lt.mpr hba)
        exact hnc (hiff.mpr hnd)
    · rw [betweenMod_eq_inOpenArc hP hsep, betweenMod_eq_inOpenArc hP hsep]
      constructor
      · intro hiff
        exact ⟨⟨h1, h2, h3, h4⟩, hiff⟩
      · rintro ⟨_, hiff⟩
        exact hiff

/-- Witness for C4 at the concrete instance `P = 20`, chords `(0,10)` and
`(5,15)` (which interleave and cross). -/
theorem chordsCross_circle_spec_witness :
    (0 : ℚ) < 20 ∧ (chordsCross (0, 10) (5, 15) (some 20) = true ↔
      (¬ circleCoincident 0 5 20 ∧ ¬ circleCoincident 0 15 20 ∧
        ¬ circleCoincident 10 5 20 ∧ ¬ circleCoincident 10 15 20) ∧
      (inOpenArc 5 0 10 20 ↔ ¬ inOpenArc 15 0 10 20)) :=
  ⟨by norm_num, chordsCross_circle_spec 0 10 5 15 20 (by norm_num)⟩

/-! ### Data model

The shared `types.ts` module of the repository is not present under
`src/`; the record shapes below are reconstructed from their uses in the
present sources (`region.assignments ?? []`, `assignment.regionPort1`,
`assignment.connection.mutuallyConnectedNetworkId`,
`port.region1T`, `region.d.polygon`, `region.d.bounds`,
`region.d.isViaRegion`, …) and from the specification's data-model
table.  Only the fields that the functions under verification read are
modelled. -/

/-- `Bounds` (`src/lib/JumperGraphSolver/Bounds.ts`). -/
structure Bounds where
  minX : ℚ
  minY : ℚ
  maxX : ℚ
  maxY : ℚ
deriving DecidableEq, Repr

/-- The `d.polygonPerimeterCache` record stored on a region. -/
structure PolygonPerimeterCache where
  edgeLengths : List ℚ
  cumulative : List ℚ
  perimeter : ℚ
deriving DecidableEq, Repr

/-- The `d` payload of a `JRegion` (fields read by the verified code;
`isViaRegion?: boolean` is `false` when absent). -/
structure JRegionData where
  bounds : Bounds
  polygon : Option (List Pt)
  polygonPerimeterCache : Option PolygonPerimeterCache
  isViaRegion : Bool
deriving DecidableEq, Repr

/-- A connection; `mutuallyConnectedNetworkId` is optional in the
serialized form, and `!==` on two absent ids is `false` (same net). -/
structure Connection where
  connectionId : String
  mutuallyConnectedNetworkId : Option String
deriving DecidableEq, Repr

/-- A `JPort`.  The `region1`/`region2` object references are modelled
by the referenced regions' ids; `region1T`/`region2T` are the lazily
written perimeter-coordinate caches. -/
structure JPort where
  portId : String
  region1Id : String
  region2Id : String
  d : Pt
  region1T : Option ℚ
  region2T : Option ℚ
deriving DecidableEq, Repr

/-- A `RegionPortAssignment`: a committed chord `(regionPort1,
regionPort2)` owned by `connection`. -/
structure RegionPortAssignment where
  regionPort1 : JPort
  regionPort2 : JPort
  connection : Connection
deriving DecidableEq, Repr

/-- A `JRegion`; `assignments` is optional in the source (every reader
uses `region.assignments ?? []`). -/
structure JRegion where
  regionId : String
  d : JRegionData
  assignments : Option (List RegionPortAssignment)
deriving DecidableEq, Repr

/-! ### Segment intersection and the combined chord test
(`src/unnamed/part_003`, the current `polygonPerimeterUtils.ts`) -/

/-- `lineSegmentsIntersect(p1, p2, p3, p4, eps = 1e-9)`: segments sharing
a coincident endpoint (component-wise within `eps`) do not intersect;
otherwise the standard cross-product straddle test. -/
def lineSegmentsIntersect (p1 p2 p3 p4 : Pt) (eps : ℚ) : Bool :=
  let pointsCoincident := fun (a b : Pt) =>
    decide (|a.x - b.x| < eps) && decide (|a.y - b.y| < eps)
  if pointsCoincident p1 p3 || pointsCoincident p1 p4 ||
      pointsCoincident p2 p3 || pointsCoincident p2 p4 then false
  else
    let cross := fun (o a b : Pt) =>
      (a.x - o.x) * (b.y - o.y) - (a.y - o.y) * (b.x - o.x)
    let d1 := cross p3 p4 p1
    let d2 := cross p3 p4 p2
    let d3 := cross p1 p2 p3
    let d4 := cross p1 p2 p4
    if decide (d1 * d2 < 0) && decide (d3 * d4 < 0) then true
    else false

/-- `chordsIntersect(newChord, existingChord, perimeter, newPort1,
newPort2, existingPort1, existingPort2)`: the perimeter-based check,
with a fall-back to 2D segment intersection for chords whose endpoints
lie on the same polygon edge. -/
def chordsIntersect (newChord existingChord : ℚ × ℚ) (perimeter : ℚ)
    (newPort1 newPort2 existingPort1 existingPort2 : JPort) : Bool :=
  if chordsCross newChord existingChord (some perimeter) then true
  else
    lineSegmentsIntersect newPort1.d newPort2.d existingPort1.d
      existingPort2.d 1e-9

theorem lineSegmentsIntersect_spec (p1 p2 p3 p4 : Pt) (eps : ℚ) :
    lineSegmentsIntersect p1 p2 p3 p4 eps = true ↔
      ¬ ((|p1.x - p3.x| < eps ∧ |p1.y - p3.y| < eps) ∨
          (|p1.x - p4.x| < eps ∧ |p1.y - p4.y| < eps) ∨
          (|p2.x - p3.x| < eps ∧ |p2.y - p3.y| < eps) ∨
          (|p2.x - p4.x| < eps ∧ |p2.y - p4.y| < eps)) ∧
      (((p4.x - p3.x) * (p1.y - p3.y) - (p4.y - p3.y) * (p1.x - p3.x)) *
          ((p4.x - p3.x) * (p2.y - p3.y) - (p4.y - p3.y) * (p2.x - p3.x)) < 0 ∧
        ((p2.x - p1.x) * (p3.y - p1.y) - (p2.y - p1.y) * (p3.x - p1.x)) *
          ((p2.x - p1.x) * (p4.y - p1.y) - (p2.y - p1.y) * (p4.x - p1.x)) < 0) := by
  unfold lineSegmentsIntersect
  dsimp only
  split_ifs with h1 h2
  · simp only [Bool.false_eq_true, false_iff]
    rintro ⟨hnc, -⟩
    apply hnc
    simpa only [Bool.or_eq_true, Bool.and_eq_true, decide_eq_true_eq,
      or_assoc] using h1
  · simp only [true_iff]
    simp only [Bool.or_eq_true, Bool.and_eq_true, decide_eq_true_eq,
      or_assoc] at h1
    simp only [Bool.and_eq_true, decide_eq_true_eq] at h2
    exact ⟨h1, h2⟩
  · simp only [Bool.false_eq_true, false_iff]
    rintro ⟨-, hstraddle⟩
    apply h2
    simp only [Bool.and_eq_true, decide_eq_true_eq]
    exact hstraddle

/-- **C5.** Two chords geometrically cross iff either the perimeter
interleaving test (`chordsCross`) or the Cartesian segment-intersection
test reports a crossing; the segment test uses standard cross-product
straddling with epsilon `1e-9` and reports no crossing when the two
segments share a coincident endpoint.  `chordsIntersect` returns exactly
this disjunction for every pair of chords. -/
theorem chordsIntersect_disjunction (newChord existingChord : ℚ × ℚ)
    (P : ℚ) (newPort1 newPort2 existingPort1 existingPort2 : JPort) :
    chordsIntersect newChord existingChord P newPort1 newPort2
        existingPort1 existingPort2 = true ↔
      chordsCross newChord existingChord (some P) = true ∨
        (¬ ((|newPort1.d.x - existingPort1.d.x| < 1e-9 ∧
              |newPort1.d.y - existingPort1.d.y| < 1e-9) ∨
            (|newPort1.d.x - existingPort2.d.x| < 1e-9 ∧
              |newPort1.d.y - existingPort2.d.y| < 1e-9) ∨
            (|newPort2.d.x - existingPort1.d.x| < 1e-9 ∧
              |newPort2.d.y - existingPort1.d.y| < 1e-9) ∨
            (|newPort2.d.x - existingPort2.d.x| < 1e-9 ∧
              |newPort2.d.y - existingPort2.d.y| < 1e-9)) ∧
          (((existingPort2.d.x - existingPort1.d.x) *
                (newPort1.d.y - existingPort1.d.y) -
              (existingPort2.d.y - existingPort1.d.y) *
                (newPort1.d.x - existingPort1.d.x)) *
              ((existingPort2.d.x - existingPort1.d.x) *
                  (newPort2.d.y - existingPort1.d.y) -
                (existingPort2.d.y - existingPort1.d.y) *
                  (newPort2.d.x - existingPort1.d.x)) < 0 ∧
            ((newPort2.d.x - newPort1.d.x) *
                (existingPort1.d.y - newPort1.d.y) -
              (newPort2.d.y - newPort1.d.y) *
                (existingPort1.d.x - newPort1.d.x)) *
              ((newPort2.d.x - newPort1.d.x) *
                  (existingPort2.d.y - newPort1.d.y) -
                (newPort2.d.y - newPort1.d.y) *
                  (existingPort2.d.x - newPort1.d.x)) < 0)) := by
  rw [← lineSegmentsIntersect_spec]
  unfold chordsIntersect
  split_ifs with h
  · simp [h]
  · simp only [Bool.not_eq_true] at h
    simp [h]

/-! ### Perimeter parameterization (`perimeterChordUtils.ts`) -/

/-- `perimeterT(p, xmin, xmax, ymin, ymax)`: rectangle boundary point to
1D perimeter coordinate, starting at the top-left corner, clockwise;
points not within `1e-6` of an edge are snapped to the nearest edge. -/
def perimeterT (p : Pt) (xmin xmax ymin ymax : ℚ) : ℚ :=
  let W := xmax - xmin
  let H := ymax - ymin
  let eps : ℚ := 1e-6
  if |p.y - ymax| < eps then p.x - xmin
  else if |p.x - xmax| < eps then W + (ymax - p.y)
  else if |p.y - ymin| < eps then W + H + (xmax - p.x)
  else if |p.x - xmin| < eps then 2 * W + H + (p.y - ymin)
  else
    let distTop := |p.y - ymax|
    let distRight := |p.x - xmax|
    let distBottom := |p.y - ymin|
    let distLeft := |p.x - xmin|
    let minDist := min (min (min distTop distRight) distBottom) distLeft
    if minDist = distTop then max 0 (min W (p.x - xmin))
    else if minDist = distRight then W + max 0 (min H (ymax - p.y))
    else if minDist = distBottom then W + H + max 0 (min W (xmax - p.x))
    else 2 * W + H + max 0 (min H (p.y - ymin))

/-- `projectToSegment(p, a, b)`: returns `(u, d2)`, the clamped
projection parameter of `p` on segment `(a, b)` and the squared distance
from `p` to the projection. -/
def projectToSegment (p a b : Pt) : ℚ × ℚ :=
  let abx := b.x - a.x
  let aby := b.y - a.y
  let apx := p.x - a.x
  let apy := p.y - a.y
  let ab2 := abx * abx + aby * aby
  let u := if 0 < ab2 then clamp ((apx * abx + apy * aby) / ab2) 0 1 else 0
  let q : Pt := ⟨a.x + u * abx, a.y + u * aby⟩
  (u, dist2 p q)

/-- `createPolygonPerimeterCache(polygon)`: per-edge lengths (via
`Math.hypot`, here the abstract `len`), their prefix sums, and the total
perimeter. -/
def createPolygonPerimeterCache (len : Pt → Pt → ℚ) (polygon : List Pt) :
    PolygonPerimeterCache :=
  let n := polygon.length
  let edgeLengths := (List.range n).map fun i =>
    len (polygon.getD i ⟨0, 0⟩) (polygon.getD ((i + 1) % n) ⟨0, 0⟩)
  let cumulative := edgeLengths.scanl (· + ·) 0
  { edgeLengths := edgeLengths, cumulative := cumulative,
    perimeter := cumulative.getD n 0 }

/-- Comparison of a fresh squared distance against the running best,
whose initial value `Number.POSITIVE_INFINITY` is modelled by `none`. -/
def ltBest (v : ℚ) (best : Option ℚ) : Bool :=
  match best with
  | none => true
  | some w => decide (v < w)

/-- The edge-scanning loop of `perimeterTPolygonWithCache`: walk the
edge indices in order carrying `(bestEdgeIndex, bestU, bestD2)`; stop at
the first edge whose squared distance is `≤ eps2` (the `break` in the
source), otherwise keep the strictly closest edge seen so far. -/
def perimeterTScan (p : Pt) (polygon : List Pt) (eps2 : ℚ) :
    List ℕ → ℕ × ℚ × Option ℚ → ℕ × ℚ
  | [], (bi, bu, _) => (bi, bu)
  | i :: rest, (bi, bu, bd2) =>
    let a := polygon.getD i ⟨0, 0⟩
    let b := polygon.getD ((i + 1) % polygon.length) ⟨0, 0⟩
    let pr := projectToSegment p a b
    if pr.2 ≤ eps2 then (i, pr.1)
    else if ltBest pr.2 bd2 then
      perimeterTScan p polygon eps2 rest (i, pr.1, some pr.2)
    else perimeterTScan p polygon eps2 rest (bi, bu, bd2)

/-- `perimeterTPolygonWithCache(p, polygon, cache, eps = 1e-6)`. -/
def perimeterTPolygonWithCache (p : Pt) (polygon : List Pt)
    (cache : PolygonPerimeterCache) (eps : ℚ) : ℚ :=
  let best := perimeterTScan p polygon (eps * eps)
    (List.range polygon.length) (0, 0, none)
  cache.cumulative.getD best.1 0 + best.2 * cache.edgeLengths.getD best.1 0

/-- `getRegionPolygonCache(region)`: `none` when the region has no
polygon of at least 3 vertices, otherwise the stored cache or a freshly
created one (the store-back is value-invisible, see the header). -/
def getRegionPolygonCache (len : Pt → Pt → ℚ) (region : JRegion) :
    Option PolygonPerimeterCache :=
  match region.d.polygon with
  | none => none
  | some polygon =>
    if polygon.length < 3 then none
    else
      match region.d.polygonPerimeterCache with
      | some existing => some existing
      | none => some (createPolygonPerimeterCache len polygon)

/-- `getRegionPerimeter(region)`. -/
def getRegionPerimeter (len : Pt → Pt → ℚ) (region : JRegion) : ℚ :=
  match getRegionPolygonCache len region with
  | some polygonCache => polygonCache.perimeter
  | none =>
    getRectanglePerimeter region.d.bounds.minX region.d.bounds.maxX
      region.d.bounds.minY region.d.bounds.maxY

/-- `getPointPerimeterTInRegion(p, region)`. -/
def getPointPerimeterTInRegion (len : Pt → Pt → ℚ) (p : Pt)
    (region : JRegion) : ℚ :=
  match region.d.polygon with
  | some polygon =>
    if 3 ≤ polygon.length then
      match getRegionPolygonCache len region with
      | some cache => perimeterTPolygonWithCache p polygon cache 1e-6
      | none =>
        perimeterT p region.d.bounds.minX region.d.bounds.maxX
          region.d.bounds.minY region.d.bounds.maxY
    else
      perimeterT p region.d.bounds.minX region.d.bounds.maxX
        region.d.bounds.minY region.d.bounds.maxY
  | none =>
    perimeterT p region.d.bounds.minX region.d.bounds.maxX
      region.d.bounds.minY region.d.bounds.maxY

/-- `getPortPerimeterTInRegion(port, region)`: returns the cached
`region1T`/`region2T` when present, otherwise computes the value and
writes it back.  The mutation of the port is modelled by returning the
updated port next to the value. -/
def getPortPerimeterTInRegion (len : Pt → Pt → ℚ) (port : JPort)
    (region : JRegion) : ℚ × JPort :=
  if port.region1Id = region.regionId then
    match port.region1T with
    | some t => (t, port)
    | none =>
      let t := getPointPerimeterTInRegion len port.d region
      (t, { port with region1T := some t })
  else if port.region2Id = region.regionId then
    match port.region2T with
    | some t => (t, port)
    | none =>
      let t := getPointPerimeterTInRegion len port.d region
      (t, { port with region2T := some t })
  else (getPointPerimeterTInRegion len port.d region, port)

/-! ### Crossing engines -/

/-- `computeDifferentNetCrossings(region, port1, port2)`
(`src/lib/JumperGraphSolver/computeDifferentNetCrossings.ts`): the
number of existing assignments of the region whose chord crosses the
chord of `(port1, port2)` under the perimeter interleaving test. -/
def computeDifferentNetCrossings (len : Pt → Pt → ℚ) (region : JRegion)
    (port1 port2 : JPort) : ℕ :=
  let perimeter := getRegionPerimeter len region
  let t1 := (getPortPerimeterTInRegion len port1 region).1
  let t2 := (getPortPerimeterTInRegion len port2 region).1
  let newChord := (t1, t2)
  (region.assignments.getD []).countP fun assignment =>
    let existingT1 := (getPortPerimeterTInRegion len assignment.regionPort1 region).1
    let existingT2 := (getPortPerimeterTInRegion len assignment.regionPort2 region).1
    chordsCross newChord (existingT1, existingT2) (some perimeter)

/-- `computeCrossingAssignments(region, port1, port2)`
(`src/lib/JumperGraphSolver/computeCrossingAssignments.ts`): the list of
those assignments, in insertion order. -/
def computeCrossingAssignments (len : Pt → Pt → ℚ) (region : JRegion)
    (port1 port2 : JPort) : List RegionPortAssignment :=
  let perimeter := getRegionPerimeter len region
  let t1 := (getPortPerimeterTInRegion len port1 region).1
  let t2 := (getPortPerimeterTInRegion len port2 region).1
  let newChord := (t1, t2)
  (region.assignments.getD []).filter fun assignment =>
    let existingT1 := (getPortPerimeterTInRegion len assignment.regionPort1 region).1
    let existingT2 := (getPortPerimeterTInRegion len assignment.regionPort2 region).1
    chordsCross newChord (existingT1, existingT2) (some perimeter)

/-- `computeDifferentNetCrossingsForPolygon(region, port1, port2)`
(`src/unnamed/part_003`): like `computeDifferentNetCrossings` but with
the segment-intersection fallback; regions without a (≥ 3 vertex)
polygon yield `0`. -/
def computeDifferentNetCrossingsForPolygon (len : Pt → Pt → ℚ)
    (region : JRegion) (port1 port2 : JPort) : ℕ :=
  match region.d.polygon with
  | none => 0
  | some polygon =>
    if polygon.length < 3 then 0
    else
      let perimeter := getRegionPerimeter len region
      let t1 := (getPortPerimeterTInRegion len port1 region).1
      let t2 := (getPortPerimeterTInRegion len port2 region).1
      let newChord := (t1, t2)
      (region.assignments.getD []).countP fun assignment =>
        let existingT1 := (getPortPerimeterTInRegion len assignment.regionPort1 region).1
        let existingT2 := (getPortPerimeterTInRegion len assignment.regionPort2 region).1
        chordsIntersect newChord (existingT1, existingT2) perimeter
          port1 port2 assignment.regionPort1 assignment.regionPort2

/-- `computeCrossingAssignmentsForPolygon(region, port1, port2)`
(`src/unnamed/part_003`). -/
def computeCrossingAssignmentsForPolygon (len : Pt → Pt → ℚ)
    (region : JRegion) (port1 port2 : JPort) : List RegionPortAssignment :=
  match region.d.polygon with
  | none => []
  | some polygon =>
    if polygon.length < 3 then []
    else
      let perimeter := getRegionPerimeter len region
      let t1 := (getPortPerimeterTInRegion len port1 region).1
      let t2 := (getPortPerimeterTInRegion len port2 region).1
      let newChord := (t1, t2)
      (region.assignments.getD []).filter fun assignment =>
        let existingT1 := (getPortPerimeterTInRegion len assignment.regionPort1 region).1
        let existingT2 := (getPortPerimeterTInRegion len assignment.regionPort2 region).1
        chordsIntersect newChord (existingT1, existingT2) perimeter
          port1 port2 assignment.regionPort1 assignment.regionPort2

/-- **C10.** For every region and port pair, the crossing count returned
by `computeDifferentNetCrossingsForPolygon` equals the length of the
assignment list returned by `computeCrossingAssignmentsForPolygon`, and
likewise `computeDifferentNetCrossings` equals the length of
`computeCrossingAssignments`. -/
theorem crossings_count_eq_crossing_assignments_length
    (len : Pt → Pt → ℚ) (region : JRegion) (port1 port2 : JPort) :
    computeDifferentNetCrossingsForPolygon len region port1 port2 =
        (computeCrossingAssignmentsForPolygon len region port1 port2).length ∧
      computeDifferentNetCrossings len region port1 port2 =
        (computeCrossingAssignments len region port1 port2).length := by
  constructor
  · unfold computeDifferentNetCrossingsForPolygon
      computeCrossingAssignmentsForPolygon
    cases region.d.polygon with
    | none => rfl
    | some polygon =>
      dsimp only
      split_ifs with h
      · rfl
      · exact List.countP_eq_length_filter _ _
  · unfold computeDifferentNetCrossings computeCrossingAssignments
    exact List.countP_eq_length_filter _ _

/-! ### C2: net filtering in the crossing counts

`countCrossingsWithOtherNets` below is written from the specification's
sentence "count of existing assignments in `R` whose owning connection's
net ID differs from `currentNetId` and whose chord crosses `(p1, p2)`";
it is the claim side of C2, to be compared with the source-side
`computeDifferentNetCrossings` / `computeDifferentNetCrossingsForPolygon`
(which take no net ID at all). -/

/-- Claim-side count for rectangle regions: only different-net crossing
assignments are counted. -/
def countCrossingsWithOtherNets (len : Pt → Pt → ℚ) (region : JRegion)
    (port1 port2 : JPort) (currentNetId : Option String) : ℕ :=
  let perimeter := getRegionPerimeter len region
  let t1 := (getPortPerimeterTInRegion len port1 region).1
  let t2 := (getPortPerimeterTInRegion len port2 region).1
  (region.assignments.getD []).countP fun assignment =>
    decide (assignment.connection.mutuallyConnectedNetworkId ≠ currentNetId) &&
      chordsCross (t1, t2)
        ((getPortPerimeterTInRegion len assignment.regionPort1 region).1,
          (getPortPerimeterTInRegion len assignment.regionPort2 region).1)
        (some perimeter)

/-- Claim-side count for polygon regions (same shape, with the
segment-intersection fallback of the polygon engine). -/
def countCrossingsWithOtherNetsForPolygon (len : Pt → Pt → ℚ)
    (region : JRegion) (port1 port2 : JPort)
    (currentNetId : Option String) : ℕ :=
  match region.d.polygon with
  | none => 0
  | some polygon =>
    if polygon.length < 3 then 0
    else
      let perimeter := getRegionPerimeter len region
      let t1 := (getPortPerimeterTInRegion len port1 region).1
      let t2 := (getPortPerimeterTInRegion len port2 region).1
      (region.assignments.getD []).countP fun assignment =>
        decide (assignment.connection.mutuallyConnectedNetworkId ≠ currentNetId) &&
          chordsIntersect (t1, t2)
            ((getPortPerimeterTInRegion len assignment.regionPort1 region).1,
              (getPortPerimeterTInRegion len assignment.regionPort2 region).1)
            perimeter port1 port2 assignment.regionPort1 assignment.regionPort2

/-- Axis-aligned edge length: equals the Euclidean `Math.hypot` length on
horizontal and vertical edges. -/
def axisAlignedLen (a b : Pt) : ℚ := |b.x - a.x| + |b.y - a.y|

/-- Left port `(0, 5)` of the 10×10 counterexample region. -/
def cexPortLeft : JPort := ⟨"PL", "R0", "L", ⟨0, 5⟩, none, none⟩

/-- Right port `(10, 5)` of the counterexample region. -/
def cexPortRight : JPort := ⟨"PR", "R0", "Rt", ⟨10, 5⟩, none, none⟩

/-- Top port `(5, 10)` of the counterexample region. -/
def cexPortTop : JPort := ⟨"PT", "R0", "T", ⟨5, 10⟩, none, none⟩

/-- Bottom port `(5, 0)` of the counterexample region. -/
def cexPortBottom : JPort := ⟨"PB", "R0", "B", ⟨5, 0⟩, none, none⟩

/-- An existing assignment of net `N1` through the counterexample
region, spanning top to bottom. -/
def cexAssignment : RegionPortAssignment :=
  ⟨cexPortTop, cexPortBottom, ⟨"C1", some "N1"⟩⟩

/-- A rectangle region `[0,10] × [0,10]` holding one committed
assignment owned by net `N1`. -/
def cexRegion : JRegion :=
  ⟨"R0", ⟨⟨0, 0, 10, 10⟩, none, none, false⟩, some [cexAssignment]⟩

/-- **C2 counterexample.**  In `cexRegion` the only existing assignment
is owned by net `N1` and its chord (top→bottom, perimeter coordinates
`(5, 25)`) crosses the left→right chord `(35, 15)`.  The engine counts
it (`= 1`) even when the current net is that same `N1`, whereas the
claim requires same-net assignments never to contribute (`= 0`). -/
theorem computeDifferentNetCrossings_same_net_counterexample :
    computeDifferentNetCrossings axisAlignedLen cexRegion
        cexPortLeft cexPortRight = 1 ∧
      countCrossingsWithOtherNets axisAlignedLen cexRegion
        cexPortLeft cexPortRight (some "N1") = 0 := by
  have hperim : getRegionPerimeter axisAlignedLen cexRegion = 40 := by
    norm_num [getRegionPerimeter, getRegionPolygonCache, cexRegion,
      getRectanglePerimeter]
  have hL : (getPortPerimeterTInRegion axisAlignedLen cexPortLeft cexRegion).1 = 35 := by
    norm_num [getPortPerimeterTInRegion, cexPortLeft, cexRegion,
      getPointPerimeterTInRegion, perimeterT, abs_of_nonneg, abs_of_nonpos]
  have hR : (getPortPerimeterTInRegion axisAlignedLen cexPortRight cexRegion).1 = 15 := by
    norm_num [getPortPerimeterTInRegion, cexPortRight, cexRegion,
      getPointPerimeterTInRegion, perimeterT, abs_of_nonneg, abs_of_nonpos]
  have hT : (getPortPerimeterTInRegion axisAlignedLen cexPortTop cexRegion).1 = 5 := by
    norm_num [getPortPerimeterTInRegion, cexPortTop, cexRegion,
      getPointPerimeterTInRegion, perimeterT, abs_of_nonneg, abs_of_nonpos]
  have hB : (getPortPerimeterTInRegion axisAlignedLen cexPortBottom cexRegion).1 = 25 := by
    norm_num [getPortPerimeterTInRegion, cexPortBottom, cexRegion,
      getPointPerimeterTInRegion, perimeterT, abs_of_nonneg, abs_of_nonpos]
  have hcross : chordsCross (35, 15) (5, 25) (some 40) = true := by
    norm_num [chordsCross, areCoincidentOnCircle, betweenMod,
      normalizeMod_eq_self, normalizeMod_of_neg, abs_of_nonneg]
  constructor
  · rw [computeDifferentNetCrossings]
    rw [hperim, hL, hR]
    show List.countP _ ((cexRegion.assignments).getD []) = 1
    rw [show (cexRegion.assignments).getD [] = [cexAssignment] from rfl]
    rw [List.countP_cons, List.countP_nil]
    dsimp only
    rw [show cexAssignment.regionPort1 = cexPortTop from rfl,
      show cexAssignment.regionPort2 = cexPortBottom from rfl, hT, hB, hcross]
    rfl
  · rw [countCrossingsWithOtherNets]
    show List.countP _ ((cexRegion.assignments).getD []) = 0
    rw [show (cexRegion.assignments).getD [] = [cexAssignment] from rfl]
    rw [List.countP_cons, List.countP_nil]
    rw [show cexAssignment.connection.mutuallyConnectedNetworkId = some "N1" from rfl]
    simp

theorem countP_split {α : Type} (l : List α) (p q : α → Bool) :
    l.countP p =
      l.countP (fun a => q a && p a) + l.countP (fun a => !q a && p a) := by
  induction l with
  | nil => rfl
  | cons x xs ih =>
    simp only [List.countP_cons, ih]
    cases hq : q x <;> cases hp : p x <;> simp <;> omega

/-- **C2 (amended).**  The crossing-count engines apply no net filter:
for every current net ID, the count returned by the engine equals the
different-net count of the specification plus the number of *same-net*
assignments whose chord crosses — so same-net crossing assignments do
contribute to the engine's count (both for the rectangle engine and for
the polygon engine). -/
theorem computeDifferentNetCrossings_counts_all_nets
    (len : Pt → Pt → ℚ) (region : JRegion) (port1 port2 : JPort)
    (currentNetId : Option String) :
    computeDifferentNetCrossings len region port1 port2 =
        countCrossingsWithOtherNets len region port1 port2 currentNetId +
          (region.assignments.getD []).countP (fun assignment =>
            decide (assignment.connection.mutuallyConnectedNetworkId = currentNetId) &&
              chordsCross
                ((getPortPerimeterTInRegion len port1 region).1,
                  (getPortPerimeterTInRegion len port2 region).1)
                ((getPortPerimeterTInRegion len assignment.regionPort1 region).1,
                  (getPortPerimeterTInRegion len assignment.regionPort2 region).1)
                (some (getRegionPerimeter len region))) ∧
      computeDifferentNetCrossingsForPolygon len region port1 port2 =
        countCrossingsWithOtherNetsForPolygon len region port1 port2 currentNetId +
          (match region.d.polygon with
            | none => 0
            | some polygon =>
              if polygon.length < 3 then 0
              else
                (region.assignments.getD []).countP (fun assignment =>
                  decide (assignment.connection.mutuallyConnectedNetworkId = currentNetId) &&
                    chordsIntersect
                      ((getPortPerimeterTInRegion len port1 region).1,
                        (getPortPerimeterTInRegion len port2 region).1)
                      ((getPortPerimeterTInRegion len assignment.regionPort1 region).1,
                        (getPortPerimeterTInRegion len assignment.regionPort2 region).1)
                      (getRegionPerimeter len region) port1 port2
                      assignment.regionPort1 assignment.regionPort2)) := by
  have hdec : ∀ x y : Option String, decide (x = y) = !decide (x ≠ y) := by
    intro x y
    by_cases h : x = y <;> simp [h]
  constructor
  · rw [computeDifferentNetCrossings, countCrossingsWithOtherNets]
    rw [countP_split ((region.assignments).getD []) _ (fun assignment =>
      decide (assignment.connection.mutuallyConnectedNetworkId ≠ currentNetId))]
    congr 1
    apply List.countP_congr
    intro a _
    rw [hdec]
  · rw [computeDifferentNetCrossingsForPolygon, countCrossingsWithOtherNetsForPolygon]
    cases region.d.polygon with
    | none => rfl
    | some polygon =>
      dsimp only
      split_ifs with h
      · rfl
      · rw [countP_split ((region.assignments).getD []) _ (fun assignment =>
          decide (assignment.connection.mutuallyConnectedNetworkId ≠ currentNetId))]
        congr 1
        apply List.countP_congr
        intro a _
        rw [hdec]

/-! ### ViaGraphSolver variant policy (`src/unnamed/part_004`)

The methods read `this.currentConnection`; the current connection is
passed explicitly.  The cost knobs `crossingPenalty`/`crossingPenaltySq`
are likewise explicit. -/

namespace ViaGraphSolver

/-- `isRipRequiredForPortUsage(region, _port1, _port2)`: via regions are
exclusive — any assignment from a different net forces a rip; non-via
regions never force a rip here. -/
def isRipRequiredForPortUsage (currentConnection : Connection)
    (region : JRegion) (_port1 _port2 : JPort) : Bool :=
  if region.d.isViaRegion then
    (region.assignments.getD []).any fun a =>
      decide (a.connection.mutuallyConnectedNetworkId ≠
        currentConnection.mutuallyConnectedNetworkId)
  else false

/-- `getRipsRequiredForPortUsage(region, port1, port2)`: in a via region
all different-net assignments must be ripped; otherwise the
geometrically crossing assignments, filtered to different nets. -/
def getRipsRequiredForPortUsage (len : Pt → Pt → ℚ)
    (currentConnection : Connection) (region : JRegion)
    (port1 port2 : JPort) : List RegionPortAssignment :=
  if region.d.isViaRegion then
    (region.assignments.getD []).filter fun a =>
      decide (a.connection.mutuallyConnectedNetworkId ≠
        currentConnection.mutuallyConnectedNetworkId)
  else
    (computeCrossingAssignmentsForPolygon len region port1 port2).filter
      fun a =>
        decide (a.connection.mutuallyConnectedNetworkId ≠
          currentConnection.mutuallyConnectedNetworkId)

/-- `computeIncreasedRegionCostIfPortsAreUsed(region, port1, port2)`. -/
def computeIncreasedRegionCostIfPortsAreUsed (len : Pt → Pt → ℚ)
    (crossingPenalty crossingPenaltySq : ℚ)
    (currentConnection : Connection) (region : JRegion)
    (port1 port2 : JPort) : ℚ :=
  if region.d.isViaRegion then
    let differentNetCount :=
      ((region.assignments.getD []).filter fun a =>
        decide (a.connection.mutuallyConnectedNetworkId ≠
          currentConnection.mutuallyConnectedNetworkId)).length
    if 0 < differentNetCount then
      differentNetCount * crossingPenalty + differentNetCount * crossingPenaltySq
    else 0
  else
    let crossings := computeDifferentNetCrossingsForPolygon len region port1 port2
    crossings * crossingPenalty + crossings * crossingPenaltySq

end ViaGraphSolver

/-- **C1.** For every via region (`region.d.isViaRegion = true`) and every
current connection, `isRipRequiredForPortUsage` returns `true` iff the
region has at least one assignment whose connection's
`mutuallyConnectedNetworkId` differs from the current connection's, and
`getRipsRequiredForPortUsage` returns exactly all such different-net
assignments — independent of chord geometry and of the port pair. -/
theorem via_region_rip_exclusivity (len : Pt → Pt → ℚ)
    (currentConnection : Connection) (region : JRegion)
    (p1 p2 p1' p2' : JPort) (hvia : region.d.isViaRegion = true) :
    (ViaGraphSolver.isRipRequiredForPortUsage currentConnection region p1 p2 = true ↔
      ∃ a ∈ region.assignments.getD [],
        a.connection.mutuallyConnectedNetworkId ≠
          currentConnection.mutuallyConnectedNetworkId) ∧
    ViaGraphSolver.getRipsRequiredForPortUsage len currentConnection region p1 p2 =
      ((region.assignments.getD []).filter fun a =>
        decide (a.connection.mutuallyConnectedNetworkId ≠
          currentConnection.mutuallyConnectedNetworkId)) ∧
    ViaGraphSolver.getRipsRequiredForPortUsage len currentConnection region p1' p2' =
      ViaGraphSolver.getRipsRequiredForPortUsage len currentConnection region p1 p2 ∧
    ViaGraphSolver.isRipRequiredForPortUsage currentConnection region p1' p2' =
      ViaGraphSolver.isRipRequiredForPortUsage currentConnection region p1 p2 := by
  unfold ViaGraphSolver.isRipRequiredForPortUsage
    ViaGraphSolver.getRipsRequiredForPortUsage
  rw [hvia]
  simp only [if_true, List.any_eq_true, decide_eq_true_eq]
  exact ⟨trivial, trivial, trivial, trivial⟩

/-- A via region holding one assignment owned by net `N2`. -/
def viaRegionEx : JRegion :=
  ⟨"V", ⟨⟨0, 0, 1, 1⟩, none, none, true⟩, some [cexAssignment]⟩

/-- Witness for C1: the concrete via region `viaRegionEx` with a current
connection on net `N9` (different from the assignment's `N1`), checked
at two distinct port pairs. -/
theorem via_region_rip_exclusivity_witness :
    viaRegionEx.d.isViaRegion = true ∧
    ((ViaGraphSolver.isRipRequiredForPortUsage ⟨"C9", some "N9"⟩ viaRegionEx
        cexPortLeft cexPortRight = true ↔
      ∃ a ∈ viaRegionEx.assignments.getD [],
        a.connection.mutuallyConnectedNetworkId ≠
          (⟨"C9", some "N9"⟩ : Connection).mutuallyConnectedNetworkId) ∧
    ViaGraphSolver.getRipsRequiredForPortUsage axisAlignedLen ⟨"C9", some "N9"⟩
        viaRegionEx cexPortLeft cexPortRight =
      ((viaRegionEx.assignments.getD []).filter fun a =>
        decide (a.connection.mutuallyConnectedNetworkId ≠
          (⟨"C9", some "N9"⟩ : Connection).mutuallyConnectedNetworkId)) ∧
    ViaGraphSolver.getRipsRequiredForPortUsage axisAlignedLen ⟨"C9", some "N9"⟩
        viaRegionEx cexPortTop cexPortBottom =
      ViaGraphSolver.getRipsRequiredForPortUsage axisAlignedLen ⟨"C9", some "N9"⟩
        viaRegionEx cexPortLeft cexPortRight ∧
    ViaGraphSolver.isRipRequiredForPortUsage ⟨"C9", some "N9"⟩ viaRegionEx
        cexPortTop cexPortBottom =
      ViaGraphSolver.isRipRequiredForPortUsage ⟨"C9", some "N9"⟩ viaRegionEx
        cexPortLeft cexPortRight) :=
  ⟨rfl, via_region_rip_exclusivity axisAlignedLen ⟨"C9", some "N9"⟩ viaRegionEx
    cexPortLeft cexPortRight cexPortTop cexPortBottom rfl⟩

/-! ### Via solver constructor: defaults, knobs, iteration budget -/

/-- The shape of `VIA_GRAPH_SOLVER_DEFAULTS`. -/
structure ViaGraphSolverDefaults where
  portUsagePenalty : ℚ
  portUsagePenaltySq : ℚ
  crossingPenalty : ℚ
  crossingPenaltySq : ℚ
  ripCost : ℚ
  greedyMultiplier : ℚ
deriving DecidableEq, Repr

/-- `VIA_GRAPH_SOLVER_DEFAULTS` (`src/unnamed/part_004`, lines 24–31). -/
def VIA_GRAPH_SOLVER_DEFAULTS : ViaGraphSolverDefaults :=
  { portUsagePenalty := 0.034685181009478865
    portUsagePenaltySq := 0
    crossingPenalty := 4.072520483177124
    crossingPenaltySq := 0
    ripCost := 35.38577539020022
    greedyMultiplier := 0.5518001238069296 }

/-- The optional knobs of the `ViaGraphSolver` constructor input (the
via constructor's input type has no `greedyMultiplier` and no
`additionalMaxIterationsPerCrossing` field). -/
structure ViaGraphSolverInput where
  inputConnections : List Connection
  ripCost : Option ℚ
  portUsagePenalty : Option ℚ
  crossingPenalty : Option ℚ
  baseMaxIterations : Option ℚ
  additionalMaxIterationsPerConnection : Option ℚ
deriving Repr

/-- The numeric state a constructed `ViaGraphSolver` carries. -/
structure ViaGraphSolverState where
  greedyMultiplier : ℚ
  ripCost : ℚ
  portUsagePenalty : ℚ
  portUsagePenaltySq : ℚ
  crossingPenalty : ℚ
  crossingPenaltySq : ℚ
  baseMaxIterations : ℚ
  additionalMaxIterationsPerConnection : ℚ
  additionalMaxIterationsPerCrossing : ℚ
  MAX_ITERATIONS : ℚ
deriving Repr

/-- The `ViaGraphSolver` constructor (`src/unnamed/part_004`, lines
71–107): field initializers from `VIA_GRAPH_SOLVER_DEFAULTS`, `??`
overrides from the input, then
`MAX_ITERATIONS = baseMaxIterations + |inputConnections| ·
additionalMaxIterationsPerConnection + crossings ·
additionalMaxIterationsPerCrossing`.  `crossings` stands for the value
of `countInputConnectionCrossings(graph, inputConnections)`, whose
defining module is not among the sources; the budget formula does not
depend on how it is computed. -/
def mkViaGraphSolver (input : ViaGraphSolverInput) (crossings : ℚ) :
    ViaGraphSolverState :=
  let ripCost := input.ripCost.getD VIA_GRAPH_SOLVER_DEFAULTS.ripCost
  let portUsagePenalty :=
    input.portUsagePenalty.getD VIA_GRAPH_SOLVER_DEFAULTS.portUsagePenalty
  let crossingPenalty :=
    input.crossingPenalty.getD VIA_GRAPH_SOLVER_DEFAULTS.crossingPenalty
  let baseMaxIterations := input.baseMaxIterations.getD 900000
  let additionalMaxIterationsPerConnection :=
    input.additionalMaxIterationsPerConnection.getD 2000
  let additionalMaxIterationsPerCrossing : ℚ := 2000
  { greedyMultiplier := VIA_GRAPH_SOLVER_DEFAULTS.greedyMultiplier
    ripCost := ripCost
    portUsagePenalty := portUsagePenalty
    portUsagePenaltySq := VIA_GRAPH_SOLVER_DEFAULTS.portUsagePenaltySq
    crossingPenalty := crossingPenalty
    crossingPenaltySq := VIA_GRAPH_SOLVER_DEFAULTS.crossingPenaltySq
    baseMaxIterations := baseMaxIterations
    additionalMaxIterationsPerConnection := additionalMaxIterationsPerConnection
    additionalMaxIterationsPerCrossing := additionalMaxIterationsPerCrossing
    MAX_ITERATIONS := baseMaxIterations +
      (input.inputConnections.length : ℚ) * additionalMaxIterationsPerConnection +
      crossings * additionalMaxIterationsPerCrossing }

/-- **C6.** For every solver construction input (and every crossing
count), the per-solve iteration budget satisfies
`MAX_ITERATIONS = baseMaxIterations + |inputConnections| ·
additionalMaxIterationsPerConnection + inputCrossings ·
additionalMaxIterationsPerCrossing`, with the effective (possibly
overridden) knob values stored on the solver. -/
theorem mkViaGraphSolver_budget_formula (input : ViaGraphSolverInput)
    (crossings : ℚ) :
    (mkViaGraphSolver input crossings).MAX_ITERATIONS =
      (mkViaGraphSolver input crossings).baseMaxIterations +
        (input.inputConnections.length : ℚ) *
          (mkViaGraphSolver input crossings).additionalMaxIterationsPerConnection +
        crossings *
          (mkViaGraphSolver input crossings).additionalMaxIterationsPerCrossing := rfl

namespace JumperGraphSolver

/-- The `greedyMultiplier` the `JumperGraphSolver` constructor supplies
to the base solver
(`super({ ...input, greedyMultiplier: 1.2, rippingEnabled: true,
ripCost: 1 })`). -/
def greedyMultiplier : ℚ := 1.2

end JumperGraphSolver

/-- **C7 counterexample.**  The via variant supplies
`greedyMultiplier = 0.5518001238069296 < 1.0` to the solver (it is the
value stored by the constructor), refuting "for every variant policy the
`greedyMultiplier` supplied to the solver is ≥ 1.0". -/
theorem via_greedyMultiplier_lt_one :
    ¬ (1 ≤ VIA_GRAPH_SOLVER_DEFAULTS.greedyMultiplier) ∧
      (mkViaGraphSolver ⟨[], none, none, none, none, none⟩ 0).greedyMultiplier =
        VIA_GRAPH_SOLVER_DEFAULTS.greedyMultiplier := by
  constructor
  · norm_num [VIA_GRAPH_SOLVER_DEFAULTS]
  · rfl

/-- **C7 (amended).**  The jumper variant's supplied `greedyMultiplier`
(1.2) is ≥ 1.0, while the via variant's (≈ 0.5518) is strictly between
0 and 1; the via constructor stores exactly its default for every
input. -/
theorem greedyMultiplier_variant_values (input : ViaGraphSolverInput)
    (crossings : ℚ) :
    JumperGraphSolver.greedyMultiplier = 1.2 ∧
      1 ≤ JumperGraphSolver.greedyMultiplier ∧
      0 < VIA_GRAPH_SOLVER_DEFAULTS.greedyMultiplier ∧
      VIA_GRAPH_SOLVER_DEFAULTS.greedyMultiplier < 1 ∧
      (mkViaGraphSolver input crossings).greedyMultiplier =
        VIA_GRAPH_SOLVER_DEFAULTS.greedyMultiplier := by
  refine ⟨rfl, ?_, ?_, ?_, rfl⟩
  · norm_num [JumperGraphSolver.greedyMultiplier]
  · norm_num [VIA_GRAPH_SOLVER_DEFAULTS]
  · norm_num [VIA_GRAPH_SOLVER_DEFAULTS]

/-! ### Hydration (`src/lib/convertSerializedHyperGraphToHyperGraph.ts`)

The serialized input references regions by id.  The first pass creates
every region with an empty incidence list (a JS `Map` keyed by
`regionId`: a duplicate id overwrites in place).  The second pass
resolves each port's two regions; `regionMap.get(...)!` yields
`undefined` for an unknown id and the subsequent
`region.ports.push(...)` throws a `TypeError`, aborting hydration.  The
throw is modelled by `Except.error`. -/

/-- A serialized region (only its id is relevant to hydration). -/
structure SerializedRegion where
  regionId : String
deriving DecidableEq, Repr

/-- A serialized port: regions referenced by id. -/
structure SerializedRegionPort where
  portId : String
  region1Id : String
  region2Id : String
  d : Pt
deriving DecidableEq, Repr

/-- A serialized hypergraph. -/
structure SerializedHyperGraph where
  regions : List SerializedRegion
  ports : List SerializedRegionPort
deriving Repr

/-- A hydrated region: id plus the incident port ids pushed during the
second pass (object back-references modelled by ids). -/
structure HydratedRegion where
  regionId : String
  ports : List String
deriving DecidableEq, Repr

/-- A hydrated port. -/
structure HydratedPort where
  portId : String
  region1Id : String
  region2Id : String
  d : Pt
deriving DecidableEq, Repr

/-- The hydrated hypergraph (`Array.from(portMap.values())`,
`Array.from(regionMap.values())`). -/
structure HyperGraph where
  ports : List HydratedPort
  regions : List HydratedRegion
deriving Repr

/-- `regionMap.set(region.regionId, { ...region, ports: [] })`:
overwrite in place when the key exists, else append. -/
def regionMapSet (acc : List HydratedRegion) (region : SerializedRegion) :
    List HydratedRegion :=
  if acc.any (fun r => r.regionId = region.regionId) then
    acc.map fun r =>
      if r.regionId = region.regionId then ⟨region.regionId, []⟩ else r
  else acc ++ [⟨region.regionId, []⟩]

/-- First pass of hydration. -/
def buildRegionMap (regions : List SerializedRegion) : List HydratedRegion :=
  regions.foldl regionMapSet []

/-- `region.ports.push(hydratedPort)` on the region with the given id. -/
def pushPortToRegion (rs : List HydratedRegion) (rid pid : String) :
    List HydratedRegion :=
  rs.map fun r => if r.regionId = rid then ⟨r.regionId, r.ports ++ [pid]⟩ else r

/-- `portMap.set(port.portId, hydratedPort)`. -/
def portMapSet (ps : List HydratedPort) (p : HydratedPort) :
    List HydratedPort :=
  if ps.any (fun q => q.portId = p.portId) then
    ps.map fun q => if q.portId = p.portId then p else q
  else ps ++ [p]

/-- Second pass of hydration: resolve each port's regions, throwing (as
`Except.error`) when a referenced region id is unknown. -/
def hydratePorts (regions : List HydratedRegion) (pm : List HydratedPort) :
    List SerializedRegionPort → Except String (List HydratedPort × List HydratedRegion)
  | [] => .ok (pm, regions)
  | port :: rest =>
    if ¬ (regions.any fun r => r.regionId = port.region1Id) then
      .error "TypeError: cannot read ports of undefined region1"
    else if ¬ (regions.any fun r => r.regionId = port.region2Id) then
      .error "TypeError: cannot read ports of undefined region2"
    else
      let hydratedPort : HydratedPort :=
        ⟨port.portId, port.region1Id, port.region2Id, port.d⟩
      let pm' := portMapSet pm hydratedPort
      let regions' :=
        pushPortToRegion (pushPortToRegion regions port.region1Id port.portId)
          port.region2Id port.portId
      hydratePorts regions' pm' rest

/-- `convertSerializedHyperGraphToHyperGraph` on a serialized input (the
"already hydrated" early return does not apply to serialized ports). -/
def convertSerializedHyperGraphToHyperGraph (g : SerializedHyperGraph) :
    Except String HyperGraph :=
  match hydratePorts (buildRegionMap g.regions) [] g.ports with
  | .error e => .error e
  | .ok (pm, rs) => .ok ⟨pm, rs⟩

theorem map_overwrite_ids (acc : List HydratedRegion)
    (region : SerializedRegion) (x : String) :
    ((acc.map fun r =>
        if r.regionId = region.regionId then
          (⟨region.regionId, []⟩ : HydratedRegion) else r).any
        fun r => r.regionId = x) = (acc.any fun r => r.regionId = x) := by
  induction acc with
  | nil => rfl
  | cons a rest ih =>
    simp only [List.map_cons, List.any_cons, ih]
    congr 1
    split_ifs with hc
    · rw [hc]
    · rfl

theorem regionMapSet_ids (acc : List HydratedRegion)
    (region : SerializedRegion) (x : String) :
    ((regionMapSet acc region).any fun r => r.regionId = x) =
      ((acc.any fun r => r.regionId = x) || decide (region.regionId = x)) := by
  unfold regionMapSet
  split_ifs with h
  · rw [map_overwrite_ids]
    by_cases hx : region.regionId = x
    · subst hx
      simp [h]
    · simp [hx]
  · simp only [List.any_append, List.any_cons, List.any_nil, Bool.or_false]

theorem buildRegionMap_ids (regions : List SerializedRegion) (x : String) :
    ((buildRegionMap regions).any fun r => r.regionId = x) =
      (regions.any fun r => decide (r.regionId = x)) := by
  unfold buildRegionMap
  suffices h : ∀ acc : List HydratedRegion,
      ((regions.foldl regionMapSet acc).any fun r => r.regionId = x) =
        ((acc.any fun r => r.regionId = x) ||
          (regions.any fun r => decide (r.regionId = x))) by
    simpa using h []
  induction regions with
  | nil => intro acc; simp
  | cons r rest ih =>
    intro acc
    simp only [List.foldl_cons, List.any_cons]
    rw [ih (regionMapSet acc r), regionMapSet_ids]
    cases ha : acc.any fun s => s.regionId = x <;>
      cases hr : (decide (r.regionId = x)) <;> simp

theorem pushPortToRegion_ids (rs : List HydratedRegion) (rid pid x : String) :
    ((pushPortToRegion rs rid pid).any fun r => r.regionId = x) =
      (rs.any fun r => r.regionId = x) := by
  unfold pushPortToRegion
  induction rs with
  | nil => rfl
  | cons r rest ih =>
    simp only [List.map_cons, List.any_cons, ih]
    congr 1
    split_ifs with hc <;> rfl

theorem hydratePorts_error_of_unknown (ports : List SerializedRegionPort) :
    ∀ (regions : List HydratedRegion) (pm : List HydratedPort),
    (∃ p ∈ ports,
      (regions.any fun r => r.regionId = p.region1Id) = false ∨
      (regions.any fun r => r.regionId = p.region2Id) = false) →
    ∃ msg, hydratePorts regions pm ports = .error msg := by
  induction ports with
  | nil =>
    rintro regions pm ⟨p, hp, -⟩
    exact absurd hp (List.not_mem_nil p)
  | cons q rest ih =>
    rintro regions pm ⟨p, hp, hbad⟩
    unfold hydratePorts
    by_cases h1 : (regions.any fun r => r.regionId = q.region1Id) = true
    · rw [if_neg (by rw [h1]; simp)]
      by_cases h2 : (regions.any fun r => r.regionId = q.region2Id) = true
      · rw [if_neg (by rw [h2]; simp)]
        rcases List.mem_cons.mp hp with rfl | hprest
        · rcases hbad with hb | hb
          · rw [h1] at hb; cases hb
          · rw [h2] at hb; cases hb
        · apply ih
          refine ⟨p, hprest, ?_⟩
          simpa only [pushPortToRegion_ids] using hbad
      · rw [Bool.not_eq_true] at h2
        rw [if_pos (by rw [h2]; simp)]
        exact ⟨_, rfl⟩
    · rw [Bool.not_eq_true] at h1
      rw [if_pos (by rw [h1]; simp)]
      exact ⟨_, rfl⟩

/-- **C3.** Hydrating a serialized hypergraph in which some port
references a region id that does not name any region fails with an
error (the `TypeError` thrown when pushing onto the missing region's
port list); hydration never silently produces a port with a missing
region reference. -/
theorem hydration_fails_on_unknown_region (g : SerializedHyperGraph)
    (h : ∃ p ∈ g.ports,
      (∀ r ∈ g.regions, r.regionId ≠ p.region1Id) ∨
      (∀ r ∈ g.regions, r.regionId ≠ p.region2Id)) :
    ∃ msg, convertSerializedHyperGraphToHyperGraph g = .error msg := by
  obtain ⟨p, hp, hbad⟩ := h
  have key : ∃ msg, hydratePorts (buildRegionMap g.regions) [] g.ports = .error msg := by
    apply hydratePorts_error_of_unknown
    refine ⟨p, hp, ?_⟩
    rcases hbad with hb | hb
    · left
      rw [buildRegionMap_ids]
      rw [List.any_eq_false]
      intro r hr
      simpa using hb r hr
    · right
      rw [buildRegionMap_ids]
      rw [List.any_eq_false]
      intro r hr
      simpa using hb r hr
  obtain ⟨msg, hmsg⟩ := key
  refine ⟨msg, ?_⟩
  unfold convertSerializedHyperGraphToHyperGraph
  rw [hmsg]

/-- A serialized graph whose only port references the unknown region id
`MISSING`. -/
def cexSerializedGraph : SerializedHyperGraph :=
  ⟨[⟨"A"⟩], [⟨"p0", "A", "MISSING", ⟨0, 0⟩⟩]⟩

/-- Witness for C3: hydration of `cexSerializedGraph` fails. -/
theorem hydration_fails_on_unknown_region_witness :
    (∃ p ∈ cexSerializedGraph.ports,
      (∀ r ∈ cexSerializedGraph.regions, r.regionId ≠ p.region1Id) ∨
      (∀ r ∈ cexSerializedGraph.regions, r.regionId ≠ p.region2Id)) ∧
    ∃ msg, convertSerializedHyperGraphToHyperGraph cexSerializedGraph = .error msg := by
  have hhyp : ∃ p ∈ cexSerializedGraph.ports,
      (∀ r ∈ cexSerializedGraph.regions, r.regionId ≠ p.region1Id) ∨
      (∀ r ∈ cexSerializedGraph.regions, r.regionId ≠ p.region2Id) := by
    refine ⟨⟨"p0", "A", "MISSING", ⟨0, 0⟩⟩, by simp [cexSerializedGraph], Or.inr ?_⟩
    intro r hr
    simp only [cexSerializedGraph, List.mem_singleton] at hr
    subst hr
    simp
  exact ⟨hhyp, hydration_fails_on_unknown_region cexSerializedGraph hhyp⟩

/-- **C9.** Computing the perimeter-T of a port in one of its two
incident regions twice in succession (same port value threaded through,
same region, no polygon change) yields identical results: the first call
writes the computed value into the port's `region1T`/`region2T` cache
and the second call returns exactly that cached value, leaving the port
unchanged. -/
theorem getPortPerimeterTInRegion_stable (len : Pt → Pt → ℚ)
    (port : JPort) (region : JRegion)
    (h : port.region1Id = region.regionId ∨ port.region2Id = region.regionId) :
    (getPortPerimeterTInRegion len
        (getPortPerimeterTInRegion len port region).2 region).1 =
      (getPortPerimeterTInRegion len port region).1 ∧
    (getPortPerimeterTInRegion len
        (getPortPerimeterTInRegion len port region).2 region).2 =
      (getPortPerimeterTInRegion len port region).2 ∧
    (port.region1Id = region.regionId →
      (getPortPerimeterTInRegion len port region).2.region1T =
        some (getPortPerimeterTInRegion len port region).1) ∧
    (port.region1Id ≠ region.regionId → port.region2Id = region.regionId →
      (getPortPerimeterTInRegion len port region).2.region2T =
        some (getPortPerimeterTInRegion len port region).1) := by
  unfold getPortPerimeterTInRegion
  by_cases h1 : port.region1Id = region.regionId
  · rw [if_pos h1]
    cases hc : port.region1T with
    | some t =>
      simp only []
      rw [if_pos h1, hc]
      exact ⟨rfl, rfl, fun _ => rfl, fun hn _ => absurd h1 hn⟩
    | none =>
      simp only []
      rw [if_pos h1]
      exact ⟨rfl, rfl, fun _ => trivial, fun hn _ => absurd h1 hn⟩
  · rw [if_neg h1]
    have h2 : port.region2Id = region.regionId := h.resolve_left h1
    rw [if_pos h2]
    cases hc : port.region2T with
    | some t =>
      simp only []
      rw [if_neg h1, if_pos h2, hc]
      exact ⟨rfl, rfl, fun hcontra => absurd hcontra h1, fun _ _ => rfl⟩
    | none =>
      simp only []
      rw [if_neg h1, if_pos h2]
      exact ⟨rfl, rfl, fun hcontra => absurd hcontra h1, fun _ _ => trivial⟩

/-- A rectangle region for the C9 witness. -/
def c9Region : JRegion := ⟨"R9", ⟨⟨0, 0, 10, 10⟩, none, none, false⟩, none⟩

/-- A port incident (as `region1`) to `c9Region`, with empty caches. -/
def c9Port : JPort := ⟨"p9", "R9", "S9", ⟨0, 5⟩, none, none⟩

/-- Witness for C9 at the concrete port/region pair. -/
theorem getPortPerimeterTInRegion_stable_witness :
    (c9Port.region1Id = c9Region.regionId ∨
      c9Port.region2Id = c9Region.regionId) ∧
    ((getPortPerimeterTInRegion axisAlignedLen
        (getPortPerimeterTInRegion axisAlignedLen c9Port c9Region).2 c9Region).1 =
      (getPortPerimeterTInRegion axisAlignedLen c9Port c9Region).1 ∧
    (getPortPerimeterTInRegion axisAlignedLen
        (getPortPerimeterTInRegion axisAlignedLen c9Port c9Region).2 c9Region).2 =
      (getPortPerimeterTInRegion axisAlignedLen c9Port c9Region).2 ∧
    (c9Port.region1Id = c9Region.regionId →
      (getPortPerimeterTInRegion axisAlignedLen c9Port c9Region).2.region1T =
        some (getPortPerimeterTInRegion axisAlignedLen c9Port c9Region).1) ∧
    (c9Port.region1Id ≠ c9Region.regionId → c9Port.region2Id = c9Region.regionId →
      (getPortPerimeterTInRegion axisAlignedLen c9Port c9Region).2.region2T =
        some (getPortPerimeterTInRegion axisAlignedLen c9Port c9Region).1)) :=
  ⟨Or.inl rfl,
    getPortPerimeterTInRegion_stable axisAlignedLen c9Port c9Region (Or.inl rfl)⟩

/-! ### C8: edge selection of the polygon parameterization

`specNearestEdge`/`specPolygonPerimeterT` below are written from the
specification's sentence "project a query point onto every edge, keep
the minimum-distance projection (ties: lowest edge index),
`t = cumulative_length_to_edge_start + fractional_distance_along_edge`";
they are the claim side of C8.  `selectEdge` is the declarative
description of what the source loop actually selects: the *first* edge
whose squared projection distance is `≤ eps²`, and only in the absence
of such an edge the minimum-distance projection. -/

/-- Claim-side selection: minimum squared distance over all edges,
ties broken by the lowest edge index (strict improvement keeps the
earlier edge). -/
def specNearestEdge (p : Pt) (polygon : List Pt) : ℕ × ℚ :=
  let b := (List.range polygon.length).foldl (fun best i =>
    let pr := projectToSegment p (polygon.getD i ⟨0, 0⟩)
      (polygon.getD ((i + 1) % polygon.length) ⟨0, 0⟩)
    if ltBest pr.2 best.2.2 then (i, pr.1, some pr.2) else best) (0, 0, none)
  (b.1, b.2.1)

/-- Claim-side parameterization: cumulative length to the nearest
edge's start plus the fractional distance along it. -/
def specPolygonPerimeterT (len : Pt → Pt → ℚ) (p : Pt)
    (polygon : List Pt) : ℚ :=
  let cache := createPolygonPerimeterCache len polygon
  cache.cumulative.getD (specNearestEdge p polygon).1 0 +
    (specNearestEdge p polygon).2 *
      cache.edgeLengths.getD (specNearestEdge p polygon).1 0

/-- The edge (and projection parameter) the source loop actually
selects: the first edge within `eps2`, else the minimum-distance one
(ties: lowest index). -/
def selectEdge (p : Pt) (polygon : List Pt) (eps2 : ℚ) : ℕ × ℚ :=
  match (List.range polygon.length).find? (fun i =>
      decide ((projectToSegment p (polygon.getD i ⟨0, 0⟩)
        (polygon.getD ((i + 1) % polygon.length) ⟨0, 0⟩)).2 ≤ eps2)) with
  | some i => (i, (projectToSegment p (polygon.getD i ⟨0, 0⟩)
      (polygon.getD ((i + 1) % polygon.length) ⟨0, 0⟩)).1)
  | none =>
    let b := (List.range polygon.length).foldl (fun best i =>
      let pr := projectToSegment p (polygon.getD i ⟨0, 0⟩)
        (polygon.getD ((i + 1) % polygon.length) ⟨0, 0⟩)
      if ltBest pr.2 best.2.2 then (i, pr.1, some pr.2) else best) (0, 0, none)
    (b.1, b.2.1)

theorem perimeterTScan_eq (p : Pt) (polygon : List Pt) (eps2 : ℚ) :
    ∀ (idxs : List ℕ) (acc : ℕ × ℚ × Option ℚ),
    perimeterTScan p polygon eps2 idxs acc =
      match idxs.find? (fun i =>
          decide ((projectToSegment p (polygon.getD i ⟨0, 0⟩)
            (polygon.getD ((i + 1) % polygon.length) ⟨0, 0⟩)).2 ≤ eps2)) with
      | some i => (i, (projectToSegment p (polygon.getD i ⟨0, 0⟩)
          (polygon.getD ((i + 1) % polygon.length) ⟨0, 0⟩)).1)
      | none =>
        let b := idxs.foldl (fun best i =>
          let pr := projectToSegment p (polygon.getD i ⟨0, 0⟩)
            (polygon.getD ((i + 1) % polygon.length) ⟨0, 0⟩)
          if ltBest pr.2 best.2.2 then (i, pr.1, some pr.2) else best) acc
        (b.1, b.2.1) := by
  intro idxs
  induction idxs with
  | nil => intro acc; rfl
  | cons i rest ih =>
    intro acc
    obtain ⟨bi, bu, bd2⟩ := acc
    show (if _ then _ else _) = _
    by_cases hle : (projectToSegment p (polygon.getD i ⟨0, 0⟩)
        (polygon.getD ((i + 1) % polygon.length) ⟨0, 0⟩)).2 ≤ eps2
    · rw [if_pos hle]
      rw [List.find?_cons_of_pos _ (by simpa using hle)]
    · rw [if_neg hle]
      rw [List.find?_cons_of_neg _ (by simpa using hle)]
      simp only [List.foldl_cons]
      by_cases hbest : ltBest (projectToSegment p (polygon.getD i ⟨0, 0⟩)
          (polygon.getD ((i + 1) % polygon.length) ⟨0, 0⟩)).2 bd2 = true
      · rw [if_pos hbest, ih]
        simp only [hbest, if_true]
      · rw [if_neg hbest, ih]
        rw [Bool.not_eq_true] at hbest
        simp only [hbest, Bool.false_eq_true, if_false]

/-- **C8 (amended).**  For every polygon, query point, cache and `eps`,
`perimeterTPolygonWithCache` returns
`cumulative[j] + u · edgeLengths[j]` for the edge `j` given by
`selectEdge`: the *first* edge whose squared projection distance is
`≤ eps²` when one exists (the loop's early `break`), and otherwise the
minimum-distance projection with ties broken by the lowest edge
index. -/
theorem perimeterTPolygonWithCache_eq_selectEdge (p : Pt)
    (polygon : List Pt) (cache : PolygonPerimeterCache) (eps : ℚ) :
    perimeterTPolygonWithCache p polygon cache eps =
      cache.cumulative.getD (selectEdge p polygon (eps * eps)).1 0 +
        (selectEdge p polygon (eps * eps)).2 *
          cache.edgeLengths.getD (selectEdge p polygon (eps * eps)).1 0 := by
  unfold perimeterTPolygonWithCache selectEdge
  rw [perimeterTScan_eq]

/-- A thin axis-aligned rectangle polygon of height `1e-7`; all its
edges are horizontal or vertical, so `axisAlignedLen` equals the
Euclidean (`Math.hypot`) edge length exactly. -/
def cexPolygon : List Pt := [⟨0, 0⟩, ⟨10, 0⟩, ⟨10, 1e-7⟩, ⟨0, 1e-7⟩]

/-- A query point lying exactly on edge 2 of `cexPolygon` (its top
edge), at squared distance `1e-14 ≤ (1e-6)²` from edge 0. -/
def cexQueryPoint : Pt := ⟨5, 1e-7⟩

/-- **C8 counterexample.**  On `cexPolygon` the source loop breaks at
edge 0 (squared distance `1e-14 ≤ 1e-12`) and returns `t = 5`, although
the point lies exactly on edge 2 (distance 0), whose minimum-distance
projection the claim requires: `t = 15 + 1e-7`.  The returned value is
not the minimum-distance projection's `t`. -/
theorem perimeterTPolygonWithCache_early_break_counterexample :
    perimeterTPolygonWithCache cexQueryPoint cexPolygon
        (createPolygonPerimeterCache axisAlignedLen cexPolygon) 1e-6 = 5 ∧
      specPolygonPerimeterT axisAlignedLen cexQueryPoint cexPolygon =
        15 + 1e-7 ∧
      (5 : ℚ) ≠ 15 + 1e-7 := by
  have hrange : List.range cexPolygon.length = [0, 1, 2, 3] := by
    rw [show cexPolygon.length = 4 from rfl]
    rfl
  have hcache : createPolygonPerimeterCache axisAlignedLen cexPolygon =
      ⟨[10, 1e-7, 10, 1e-7], [0, 10, 10 + 1e-7, 20 + 1e-7, 20 + 2 * 1e-7],
        20 + 2 * 1e-7⟩ := by
    rw [createPolygonPerimeterCache]
    rw [hrange]
    norm_num [cexPolygon, axisAlignedLen, List.scanl, abs_of_nonneg, abs_of_nonpos]
  refine ⟨?_, ?_, by norm_num⟩
  · rw [perimeterTPolygonWithCache, hrange, hcache]
    norm_num [perimeterTScan, projectToSegment, clamp, dist2, cexPolygon,
      cexQueryPoint]
  · rw [specPolygonPerimeterT, hcache, specNearestEdge, hrange]
    norm_num [List.foldl, projectToSegment, clamp, dist2, ltBest, cexPolygon,
      cexQueryPoint]
